import Mathlib

set_option maxRecDepth 8000

/- Verification development for the eyeglass import-resolution core:
   module-name parsing and scoped-name retry (SassImplementation.ts),
   the module importer control flow, the filesystem sandbox guard and
   sandboxed fs functions (functions/fs.ts), URI normalization (util/URI.ts),
   and the fs(token) virtual importer.  Paths are modelled as POSIX paths
   (the host path library: forward-slash separator). -/

-- ## Character-list string utilities

/-- Boolean test: the first list is a leading run of the second. -/
def isLead : List Char → List Char → Bool
  | [], _ => true
  | _ :: _, [] => false
  | a :: as, b :: bs => a = b && isLead as bs

/-- Boolean test: the string pre occurs at the start of s
    (models the JavaScript startsWith / anchored regex tests). -/
def strStarts (s pre : String) : Bool := isLead pre.data s.data

/-- Boolean substring occurrence test. -/
def listSub (n : List Char) : List Char → Bool
  | [] => n.isEmpty
  | c :: cs => isLead n (c :: cs) || listSub n cs

/-- Split a character list at every occurrence of sep
    (models the JavaScript String.split: always at least one chunk). -/
def splitCh (sep : Char) : List Char → List (List Char)
  | [] => [[]]
  | c :: cs =>
    if c = sep then [] :: splitCh sep cs
    else
      match splitCh sep cs with
      | [] => [[c]]
      | s :: ss => (c :: s) :: ss

/-- Join strings with a separator (models Array.prototype.join). -/
def joinSep (sep : String) : List String → String
  | [] => ""
  | [x] => x
  | x :: xs => x ++ sep ++ joinSep sep xs

/-- The final path segment of a character list: characters after the last slash. -/
def lastSegAfter (sep : Char) (cs : List Char) : List Char :=
  (cs.reverse.takeWhile (fun c => !(c = sep))).reverse

-- ## POSIX path model (the external node path library, POSIX flavour)

/-- One step of POSIX path-segment normalization, folding segments onto a stack. -/
def stepSeg (abs : Bool) (acc : List String) (seg : String) : List String :=
  if seg = "" then acc
  else if seg = "." then acc
  else if seg = ".." then
    match acc.getLast? with
    | none => if abs then [] else [".."]
    | some l => if l = ".." then acc ++ [".."] else acc.dropLast
  else acc ++ [seg]

/-- Normalize a list of path segments, resolving dot and dot-dot segments. -/
def normSegsOf (abs : Bool) (segs : List String) : List String :=
  segs.foldl (stepSeg abs) []

/-- POSIX path.normalize (trailing-separator preservation is not modelled;
    no claim depends on it). -/
def pathNormalize (p : String) : String :=
  let abs := strStarts p "/"
  let body := joinSep "/" (normSegsOf abs ((splitCh '/' p.data).map String.mk))
  if abs then (if body = "" then "/" else "/" ++ body)
  else (if body = "" then "." else body)

/-- POSIX path.join on two fragments. -/
def pathJoin (a b : String) : String :=
  let joined := if a = "" then b else if b = "" then a else a ++ "/" ++ b
  if joined = "" then "." else pathNormalize joined

/-- POSIX path.resolve against an absolute base directory. -/
def pathResolve (base p : String) : String :=
  if strStarts p "/" then pathNormalize p else pathNormalize (base ++ "/" ++ p)

/-- Drop common leading segments of two segment lists. -/
def dropCommon : List String → List String → List String × List String
  | a :: as, b :: bs => if a = b then dropCommon as bs else (a :: as, b :: bs)
  | as, bs => (as, bs)

/-- POSIX path.relative on absolute paths: normalize both, drop the common
    leading segments, then ascend with dot-dot segments and descend into the
    remainder of the target. -/
def pathRelative (base target : String) : String :=
  let f := normSegsOf true ((splitCh '/' base.data).map String.mk)
  let t := normSegsOf true ((splitCh '/' target.data).map String.mk)
  let p := dropCommon f t
  joinSep "/" (p.1.map (fun _ => "..") ++ p.2)

/-- POSIX path.dirname. -/
def dirname (p : String) : String :=
  let stripped := (p.data.reverse.dropWhile (fun c => c = '/')).reverse
  if stripped = [] then (if strStarts p "/" then "/" else ".")
  else
    let b := lastSegAfter '/' stripped
    let d := stripped.take (stripped.length - b.length)
    let d2 := (d.reverse.dropWhile (fun c => c = '/')).reverse
    if d = [] then "." else if d2 = [] then "/" else String.mk d2

/-- POSIX path.basename (trailing separators not modelled). -/
def basename (p : String) : String := String.mk (lastSegAfter '/' p.data)

/-- Leading directory part of a path including the final slash; empty string
    when the path has no slash. -/
def dirLead (p : String) : String :=
  String.mk (p.data.take (p.data.length - (lastSegAfter '/' p.data).length))

/-- POSIX path.extname. -/
def extname (p : String) : String :=
  let b := lastSegAfter '/' p.data
  let e := b.reverse.takeWhile (fun c => !(c = '.'))
  if e.length + 1 ≤ b.length then
    (if b.length - e.length - 1 = 0 then "" else String.mk ('.' :: e.reverse))
  else ""

-- ## MODULE_PARSER (SassImplementation.ts line 186)
-- Anchored regex: ^((?:@[^/]+\/[^/]+)|(?:[^/]+))\/?(.*)

/-- Longest leading run of non-slash characters and the remainder. -/
def spanNS : List Char → List Char × List Char
  | [] => ([], [])
  | c :: cs =>
    if c = '/' then ([], c :: cs)
    else
      let p := spanNS cs
      (c :: p.1, p.2)

/-- The scoped alternative of MODULE_PARSER: an at-sign, a nonempty slash-free
    run, a slash, and a nonempty slash-free run. -/
def scopedMatch : List Char → Option (List Char × List Char)
  | [] => none
  | c :: cs =>
    if c = '@' then
      match spanNS cs with
      | (a, rest1) =>
        match rest1 with
        | [] => none
        | d :: cs2 =>
          if d = '/' then
            if a.isEmpty then none
            else
              match spanNS cs2 with
              | (b, rest) =>
                if b.isEmpty then none else some ('@' :: a ++ '/' :: b, rest)
          else none
    else none

/-- The bare alternative of MODULE_PARSER: a nonempty slash-free run. -/
def bareMatch (cs : List Char) : Option (List Char × List Char) :=
  let p := spanNS cs
  if p.1.isEmpty then none else some (p.1, p.2)

/-- The optional slash between the module name and the relative path. -/
def dropOptSlash : List Char → List Char
  | [] => []
  | c :: t => if c = '/' then t else c :: t

/-- Line terminators of the regex dot: outside dotAll mode a JavaScript dot
    matches any character except line feed, carriage return, line separator
    and paragraph separator. -/
def isLineTerm (c : Char) : Bool :=
  c = '\n' || c = '\r' || c = '\u2028' || c = '\u2029'

/-- A greedy dot-star group: the run of characters up to the first line
    terminator. -/
def dotStar (cs : List Char) : List Char :=
  cs.takeWhile (fun c => !(isLineTerm c))

/-- Full MODULE_PARSER match: group 1 is the module name, group 2 the
    relative path (the dot-star group stops at the first line terminator). -/
def moduleParserL (cs : List Char) : Option (List Char × List Char) :=
  match (match scopedMatch cs with | some x => some x | none => bareMatch cs) with
  | none => none
  | some (m, rest) => some (m, dotStar (dropOptSlash rest))

/-- MODULE_PARSER.exec on a string: module name and relative path, or none
    when the identifier starts with a slash or is empty. -/
def parseModule (s : String) : Option (String × String) :=
  (moduleParserL s.data).map (fun p => (String.mk p.1, String.mk p.2))

-- ## Module records and the importer environment

/-- Module metadata as used by ModuleImporter: name, optional declared
    stylesheet directory, optional main file path. -/
structure ModRecord where
  name : String
  sassDir : Option String
  mainPath : Option String
deriving DecidableEq

/-- A resolved import: file contents plus the resolved path. -/
structure ImportedFile where
  contents : String
  file : String
deriving DecidableEq

/-- The external collaborators of ModuleImporter: the filesystem (readFileSync,
    returning contents when the file exists), the module registry
    (eyeglass.modules.access, keyed by name and context path), and the
    fallback importer delegate.  The fallback field is modelled from the spec:
    ImportUtilities (not under src/) invokes the host-supplied delegate chain
    with the original identifier and reports either usable data or nothing. -/
structure ResolverEnv where
  read : String → Option String
  registry : String → String → Option ModRecord
  fallback : String → Option ImportedFile

/-- Result of one import resolution: an error message or a resolved file.
    Exceptions thrown synchronously are modelled as error results too. -/
abbrev ImportResult := Except String ImportedFile

-- ## NameExpander (modelled from the spec)

/-- Modelled from the spec: the NameExpander source is not under src/.
    Spec 4.2: for one base location generate, in order, (1) the name as a
    direct relative path, (2) when no extension was given, each supported
    extension appended, (3) the final segment rewritten with the leading
    underscore convention combined with each extension, skipped when the name
    is already in underscore form, and (4) the name treated as a directory
    probing _index then index files. -/
def expandLocation (exts : List String) (uri : String) (loc : String) : List String :=
  let base := basename uri
  let dp := dirLead uri
  let already := strStarts base "_"
  let hasExt := extname uri ≠ ""
  let direct := [pathJoin loc uri]
  let withExts := if hasExt then [] else exts.map (fun e => pathJoin loc (uri ++ "." ++ e))
  let underscored :=
    if already then []
    else if hasExt then [pathJoin loc (dp ++ "_" ++ base)]
    else exts.map (fun e => pathJoin loc (dp ++ "_" ++ base ++ "." ++ e))
  let indexes :=
    exts.map (fun e => pathJoin loc (uri ++ "/_index." ++ e))
      ++ exts.map (fun e => pathJoin loc (uri ++ "/index." ++ e))
  direct ++ withExts ++ underscored ++ indexes

/-- Append a candidate unless already present (insertion-ordered dedup). -/
def addUnique (cs : List String) (x : String) : List String :=
  if cs.contains x then cs else cs ++ [x]

/-- Modelled from the spec: NameExpander candidate set over a sequence of
    added locations, insertion order preserved, duplicates discarded. -/
def nameExpand (exts : List String) (uri : String) (locs : List String) : List String :=
  locs.foldl (fun cs loc => (expandLocation exts uri loc).foldl addUnique cs) []

/-- Candidate files of readAbstractFile: the location itself, then the
    location joined with the module name when one is given, then each include
    path resolved against the location. -/
def abstractFiles (exts : List String) (uri location : String)
    (includePaths : List String) (moduleName : Option String) : List String :=
  nameExpand exts uri
    ([location]
      ++ (match moduleName with | some m => [pathJoin location m] | none => [])
      ++ includePaths.map (fun ip => pathResolve location ip))

/-- The candidate files of the module-relative attempt. -/
def moduleFilesFor (exts : List String) (rel sd mn : String) : List String :=
  abstractFiles exts rel sd [] (some mn)

/-- The candidate files of the relative attempt from a real requesting file
    with no include paths (the module-branch retry passes none). -/
def relativeFilesFor (exts : List String) (uri prev : String) : List String :=
  abstractFiles exts uri (dirname prev) [] none

-- ## readFirstFile / fallback plumbing (SassImplementation.ts lines 195-343)

/-- First candidate whose read succeeds, with its contents. -/
def firstHit (read : String → Option String) : List String → Option ImportedFile
  | [] => none
  | f :: fs =>
    match read f with
    | some d => some ⟨d, f⟩
    | none => firstHit read fs

/-- The aggregated not-found message of readFirstFile: the header and every
    candidate of this probe, joined with newline-indent. -/
def notFoundMessage (uri : String) (files : List String) : String :=
  joinSep "\n  " (("Could not import " ++ uri ++ " from any of the following locations:") :: files)

/-- readFirstFile: walk the candidate list, return the first readable file,
    otherwise the aggregated not-found error. -/
def readFirstFile (read : String → Option String) (uri : String) (files : List String) : ImportResult :=
  match firstHit read files with
  | some d => Except.ok d
  | none => Except.error (notFoundMessage uri files)

/-- Modelled from the spec: import-once deduplication is owned by
    ImportUtilities (not under src/); for a single request it hands the
    resolved file through unchanged. -/
def importOnceResult (d : ImportedFile) : ImportResult := Except.ok d

/-- Modelled from the spec: ImportUtilities.fallback invokes the external
    fallback delegate with the original identifier; data from the delegate
    resolves the import, otherwise the given continuation runs. -/
def fallbackOr (env : ResolverEnv) (uri : String) (onNone : ImportResult) : ImportResult :=
  match env.fallback uri with
  | some d => Except.ok d
  | none => onNone

/-- createHandler: a successful probe goes through import-once; a failed probe
    first consults the fallback delegate and only then the error handler. -/
def handleResult (env : ResolverEnv) (uri : String) (onErr : String → ImportResult) :
    ImportResult → ImportResult
  | Except.ok d => importOnceResult d
  | Except.error e => fallbackOr env uri (onErr e)

/-- handleRelativeImports: from a real requesting file, probe relative to its
    directory with the default error handler; otherwise probe from the project
    root and report a short not-found error naming identifier and requester. -/
def handleRelativeImports (exts : List String) (env : ResolverEnv)
    (uri prev root : String) (isRealFile : Bool) (includePaths : List String) : ImportResult :=
  if isRealFile then
    handleResult env uri (fun e => Except.error e)
      (readFirstFile env.read uri (abstractFiles exts uri (dirname prev) includePaths none))
  else
    handleResult env uri (fun _ => Except.error ("Could not import " ++ uri ++ " from " ++ prev))
      (readFirstFile env.read uri (abstractFiles exts uri root includePaths none))

/-- The back-compat scoped lookup retry (SassImplementation.ts lines 263-275):
    look the parsed module name up; on a miss, when the name starts with the
    scope marker, re-split at the first slash, prepend the leftover segment to
    the relative path (JavaScript turns a missing piece into the text
    undefined) and look up once more. -/
def lookupWithRetry (reg : String → Option ModRecord) (mn rel : String) :
    String × String × Option ModRecord :=
  match reg mn with
  | some m => (mn, rel, some m)
  | none =>
    if strStarts mn "@" then
      let pieces := (splitCh '/' mn.data).map String.mk
      let mn2 := pieces.headD ""
      let rel2 := ((pieces.get? 1).getD "undefined") ++ "/" ++ rel
      (mn2, rel2, reg mn2)
    else (mn, rel, none)

/-- The configuration-error message for a module without a declared
    stylesheet directory. -/
def missingSassDirMessage (m : ModRecord) : String :=
  "sassDir is not specified in " ++ m.name ++ "'s package.json"
    ++ (match m.mainPath with | some mp => " or " ++ mp | none => "")

/-- ModuleImporter (SassImplementation.ts lines 247-333): parse the
    identifier, look the module up (with the scoped retry), then: a declared
    stylesheet directory starts the module-relative attempt whose error
    handler retries relative with no include paths; a module without one and
    no real requesting file consults the fallback and then reports the
    configuration error; otherwise resolution is relative with the configured
    include paths.  The createImporter wrapper (not under src/) only binds the
    importer context and is not modelled. -/
def moduleImport (exts : List String) (env : ResolverEnv) (includePaths : List String)
    (root uri prev : String) : ImportResult :=
  let isRealFile := (env.read prev).isSome
  let ctx := if isRealFile then prev else root
  match parseModule uri with
  | none => Except.error ("invalid uri: " ++ uri)
  | some (mn0, rel0) =>
    match lookupWithRetry (fun n => env.registry n ctx) mn0 rel0 with
    | (mn, rel, mod) =>
      match mod with
      | some m =>
        match m.sassDir with
        | some sd =>
          handleResult env uri
            (fun _ => handleRelativeImports exts env uri prev root isRealFile [])
            (readFirstFile env.read uri (moduleFilesFor exts rel sd mn))
        | none =>
          if isRealFile then
            handleRelativeImports exts env uri prev root isRealFile includePaths
          else
            fallbackOr env uri (Except.error (missingSassDirMessage m))
      | none => handleRelativeImports exts env uri prev root isRealFile includePaths

-- ## Sass value model and sandboxed fs functions (functions/fs.ts)

/-- The stylesheet value lattice as far as the fs functions observe it
    (the compiler's value marshalling is an external collaborator). -/
inductive SassVal where
  | str (s : String)
  | num (value : Int) (unit : String)
  | boolean (b : Bool)
  | null
  | error (msg : String)
  | list (xs : List SassVal) (comma : Bool)
  | map (pairs : List (String × SassVal))

/-- Name of a value's type as used in type-mismatch messages. -/
def typeNameV : SassVal → String
  | .str _ => "string"
  | .num _ _ => "number"
  | .boolean _ => "boolean"
  | .null => "null"
  | .error _ => "error"
  | .list _ _ => "list"
  | .map _ => "map"

mutual
/-- Rendering of a value for type-mismatch messages (toString in
    SassImplementation.ts). -/
def valToString : SassVal → String
  | .str s => s
  | .num v u => toString v ++ u
  | .boolean b => if b then "true" else "false"
  | .null => ""
  | .error m => m
  | .list xs comma => "(" ++ partsToString comma true xs ++ ")"
  | .map ps => "(" ++ pairsToString true ps ++ ")"

def partsToString (comma first : Bool) : List SassVal → String
  | [] => ""
  | x :: xs =>
    (if first then "" else if comma then ", " else " ")
      ++ valToString x ++ partsToString comma false xs

def pairsToString (first : Bool) : List (String × SassVal) → String
  | [] => ""
  | p :: ps => (if first then "" else ", ") ++ p.1 ++ ": " ++ valToString p.2 ++ pairsToString false ps
end

/-- isSassString as a Boolean test. -/
def isStrV : SassVal → Bool
  | .str _ => true
  | _ => false

/-- typeError (SassImplementation.ts lines 168-170) applied to an offending
    value: an error value naming the expected type and the actual value. -/
def typeErrorV (expected : String) (actual : SassVal) : SassVal :=
  .error ("Expected " ++ expected ++ ", got " ++ typeNameV actual ++ ": " ++ valToString actual)

/-- pathInSandboxDir (fs.ts lines 10-16): the candidate is treated as inside
    the sandbox directory unless the relative path from the sandbox directory
    to it textually starts with two dots. -/
def pathInSandboxDir (fsPath sandboxDir : String) : Bool :=
  !(strStarts (pathRelative sandboxDir fsPath) "..")

/-- inSandbox (fs.ts lines 25-42): no configured sandbox permits everything;
    an allow-list permits a path accepted by at least one root. -/
def inSandbox (sandbox : Option (List String)) (fsPath : String) : Bool :=
  match sandbox with
  | none => true
  | some roots => roots.any (fun sb => pathInSandboxDir fsPath sb)

/-- The security-violation error value. -/
def accessViolation (location : String) : SassVal :=
  .error ("Security violation: Cannot access " ++ location)

/-- File metadata as observed by eyeglass-fs-info. -/
structure FileStats where
  mtimeMs : Int
  birthtimeMs : Int
  isFile : Bool
  isDirectory : Bool
  size : Int

/-- External collaborators of the fs functions: the sandbox configuration and
    the filesystem syscalls (existsSync, readFile, glob — directories marked
    with a trailing slash —, stat, realpathSync). -/
structure FsEnv where
  fsSandbox : Option (List String)
  fileExists : String → Bool
  readFile : String → Except String String
  glob : String → String → List String
  stat : String → Except String FileStats
  realpath : String → Except String String

/-- The glob result loop of globFiles: keep files or directories as requested,
    re-checking the sandbox for each entry; directory entries lose their
    trailing slash. -/
def globAccum (env : FsEnv) (directory : String) (includeFiles includeDirs : Bool)
    (acc : List String) : List String → SassVal
  | [] => .list (acc.map SassVal.str) true
  | f :: fs =>
    let ends := f.data.getLast? = some '/'
    if ends && includeDirs then
      if !(inSandbox env.fsSandbox (pathJoin directory f)) then accessViolation f
      else globAccum env directory includeFiles includeDirs (acc ++ [String.mk f.data.dropLast]) fs
    else if !ends && includeFiles then
      if !(inSandbox env.fsSandbox (pathJoin directory f)) then accessViolation f
      else globAccum env directory includeFiles includeDirs (acc ++ [f]) fs
    else globAccum env directory includeFiles includeDirs acc fs

/-- globFiles (fs.ts lines 44-81), with the glob syscall as a black box. -/
def globFiles (env : FsEnv) (directory globPattern : String)
    (includeFiles includeDirs : Bool) : SassVal :=
  if inSandbox env.fsSandbox directory then
    globAccum env directory includeFiles includeDirs [] (env.glob directory globPattern)
  else accessViolation directory

/-- eyeglass-fs-join: no argument validation; node path.join throws on a
    non-string segment, modelled as none. -/
def fsJoin (segments : List SassVal) : Option SassVal :=
  if segments.all isStrV then
    let parts := (segments.map valToString).filter (fun s => s ≠ "")
    some (.str (if parts = [] then "." else pathNormalize (joinSep "/" parts)))
  else none

/-- eyeglass-fs-exists: validated string argument, sandbox check, existence. -/
def fsExists (env : FsEnv) (v : SassVal) : SassVal :=
  match v with
  | .str p =>
    if inSandbox env.fsSandbox p then
      (if env.fileExists p then .boolean true else .boolean false)
    else accessViolation p
  | _ => typeErrorV "string" v

/-- eyeglass-fs-path-separator. -/
def fsPathSeparator : SassVal := .str "/"

/-- eyeglass-fs-list-files: both string arguments validated in order. -/
def fsListFiles (env : FsEnv) (dir pat : SassVal) : SassVal :=
  match dir with
  | .str d =>
    match pat with
    | .str g => globFiles env d g true false
    | _ => typeErrorV "string" pat
  | _ => typeErrorV "string" dir

/-- eyeglass-fs-list-directories: both string arguments validated in order. -/
def fsListDirectories (env : FsEnv) (dir pat : SassVal) : SassVal :=
  match dir with
  | .str d =>
    match pat with
    | .str g => globFiles env d g false true
    | _ => typeErrorV "string" pat
  | _ => typeErrorV "string" dir

/-- eyeglass-fs-parse-filename: validated string argument, path.parse fields. -/
def fsParseFilename (v : SassVal) : SassVal :=
  match v with
  | .str p =>
    let b := basename p
    let e := extname p
    .map
      [ ("base", .str b)
      , ("dir", .str (dirname p))
      , ("name", .str (String.mk (b.data.take (b.data.length - e.data.length))))
      , ("ext", .str e)
      , ("is-absolute", .boolean (strStarts p "/")) ]
  | _ => typeErrorV "string" v

/-- eyeglass-fs-info: validated string argument, sandbox check, stat and
    realpath syscalls. -/
def fsInfo (env : FsEnv) (v : SassVal) : SassVal :=
  match v with
  | .str p =>
    if inSandbox env.fsSandbox p then
      match env.stat p with
      | Except.error e => .error e
      | Except.ok st =>
        match env.realpath p with
        | Except.error e => .error e
        | Except.ok rp =>
          .map
            [ ("modification-time", .num st.mtimeMs "")
            , ("creation-time", .num st.birthtimeMs "")
            , ("is-file", .boolean st.isFile)
            , ("is-directory", .boolean st.isDirectory)
            , ("real-path", .str rp)
            , ("size", .num st.size "") ]
    else accessViolation p
  | _ => typeErrorV "string" v

/-- eyeglass-fs-read-file: validated string argument, sandbox check, read. -/
def fsReadFile (env : FsEnv) (v : SassVal) : SassVal :=
  match v with
  | .str p =>
    if inSandbox env.fsSandbox p then
      match env.readFile p with
      | Except.error e => .error e
      | Except.ok c => .str c
    else accessViolation p
  | _ => typeErrorV "string" v

-- ## URI normalization (util/URI.ts)

/-- The anchored split of rUriFragments: a nonempty run of characters other
    than question mark and hash, an optional query part starting with the
    question mark, an optional fragment part starting with the hash.  A string
    that is empty or starts with one of the two delimiters does not match. -/
def uriSplit (cs : List Char) : Option (List Char × Option (List Char) × Option (List Char)) :=
  let p := cs.takeWhile (fun c => !(c = '?' || c = '#'))
  if p.isEmpty then none
  else
    let rest := cs.drop p.length
    match rest with
    | [] => some (p, none, none)
    | c :: t =>
      if c = '?' then
        let q := t.takeWhile (fun ch => !(ch = '#'))
        let rest2 := t.drop q.length
        some (p, some ('?' :: q),
          match rest2 with
          | [] => none
          | c2 :: t2 => some (c2 :: dotStar t2))
      else if c = '#' then some (p, none, some (c :: dotStar t))
      else some (p, none, none)

/-- convertSeparator on a POSIX host: when normalization is enabled, collapse
    every run of slashes and backslashes into the target separator. -/
def collapseGo (sep : List Char) (prevSep : Bool) : List Char → List Char
  | [] => []
  | c :: cs =>
    if c = '/' || c = '\\' then
      (if prevSep then collapseGo sep true cs else sep ++ collapseGo sep true cs)
    else c :: collapseGo sep false cs

/-- convertSeparator (URI.ts lines 11-13) on a POSIX host with the
    normalization flag explicit. -/
def convertSeparator (flag : Bool) (uri : String) (sep : String) : String :=
  if flag then String.mk (collapseGo sep.data false uri.data) else uri

/-- The state of a URI object: separator, path, search and hash parts. -/
structure URIState where
  sep : String
  path : String
  search : String
  hash : String
deriving DecidableEq

/-- setQuery then addQuery: nothing stays empty; otherwise the leading run of
    query delimiters is replaced by one question mark. -/
def setQueryStr (q : Option String) : String :=
  match q with
  | none => ""
  | some s =>
    if s = "" then ""
    else "?" ++ String.mk (s.data.dropWhile (fun c => c = '?' || c = '&'))

/-- The URI constructor (URI.ts lines 32-42) on a POSIX host: split the input
    with rUriFragments and set path, query and hash.  A non-matching input
    makes the constructor dereference a null match, modelled as none. -/
def uriConstruct (flag : Bool) (sep : Option String) (uri : String) : Option URIState :=
  match uriSplit uri.data with
  | none => none
  | some (p, q, h) =>
    let s := sep.getD "/"
    some
      { sep := s
      , path := convertSeparator flag (pathNormalize (convertSeparator flag (String.mk p) "/")) s
      , search := setQueryStr (q.map String.mk)
      , hash := (h.map String.mk).getD "" }

-- ## FSImporter (the fs(token) virtual importer)

/-- Outcome of the fs importer on one request: a synthesized registration
    import, data produced by the fallback delegate, or the null signal that
    tells the compiler to handle the import itself. -/
inductive FSImportResult where
  | imported (d : ImportedFile)
  | fallbackData (d : ImportedFile)
  | nullResult
deriving DecidableEq

/-- First character class of the fs(token) identifier pattern. -/
def fsTokenHead (c : Char) : Bool :=
  c = '-' || c = '_' || (c ≥ 'a' && c ≤ 'z') || (c ≥ 'A' && c ≤ 'Z')

/-- Later character class of the fs(token) identifier pattern. -/
def fsTokenTail (c : Char) : Bool := fsTokenHead c || (c ≥ '0' && c ≤ '9')

/-- The anchored pattern fs(identifier) with an identifier of at least two
    characters: a head character then a nonempty tail run, fully enclosed. -/
def fsURIMatch (uri : String) : Option String :=
  match uri.data with
  | 'f' :: 's' :: '(' :: rest =>
    match rest with
    | c :: cs =>
      if fsTokenHead c then
        let run := cs.takeWhile fsTokenTail
        let rem := cs.drop run.length
        if run.isEmpty then none
        else if rem = [')'] then some (String.mk (c :: run)) else none
      else none
    | [] => none
  | _ => none

/-- The synthesized stylesheet contents registering token to directory. -/
def fsRegistrationContents (identifier absolutePath : String) : String :=
  "@import \"eyeglass/fs\"; @include fs-register-path("
    ++ identifier ++ ", \"" ++ absolutePath ++ "\");"

/-- FSImporter: an identifier of the fs(token) shape synthesizes in-memory
    registration content — the reserved token root maps to the project root,
    otherwise the directory of a real requesting file, else the working
    directory — and any other identifier defers to the fallback delegate,
    ending in the null signal.  The import-once handoff (ImportUtilities, not
    under src/) passes the synthesized data through unchanged. -/
def fsImporter (env : ResolverEnv) (root cwd uri prev : String) : FSImportResult :=
  match fsURIMatch uri with
  | some identifier =>
    let absolutePath :=
      if identifier = "root" then root
      else if (env.read prev).isSome = false then pathResolve cwd "."
      else pathResolve cwd (dirname prev)
    FSImportResult.imported
      ⟨fsRegistrationContents identifier absolutePath, "fs:" ++ identifier ++ ":" ++ absolutePath⟩
  | none =>
    match env.fallback uri with
    | some d => FSImportResult.fallbackData d
    | none => FSImportResult.nullResult

-- ## Concrete environments used by witnesses and counterexamples

/-- Requesting file and one relative candidate exist; the module candidates
    miss; the fallback delegate answers the identifier. -/
def envC1 : ResolverEnv :=
  { read := fun p =>
      if p = "/p/a.scss" then some ""
      else if p = "/p/w/_b.scss" then some "R" else none
  , registry := fun n _ => if n = "w" then some ⟨"w", some "/m", none⟩ else none
  , fallback := fun u => if u = "w/b" then some ⟨"FB", "fbfile"⟩ else none }

/-- Only the requesting file exists; module found with a stylesheet dir;
    no fallback data. -/
def envC1w : ResolverEnv :=
  { read := fun p => if p = "/p/a.scss" then some "" else none
  , registry := fun n _ => if n = "w" then some ⟨"w", some "/m", none⟩ else none
  , fallback := fun _ => none }

/-- Only the requesting file exists; module found with a stylesheet dir;
    no fallback data. -/
def envC5 : ResolverEnv :=
  { read := fun p => if p = "/p/a.scss" then some "" else none
  , registry := fun n _ => if n = "w" then some ⟨"w", some "/m", none⟩ else none
  , fallback := fun _ => none }

/-- Only the requesting file exists; module found with a stylesheet dir;
    no fallback data. -/
def envC5w : ResolverEnv :=
  { read := fun p => if p = "/p/a.scss" then some "" else none
  , registry := fun n _ => if n = "w" then some ⟨"w", some "/m", none⟩ else none
  , fallback := fun _ => none }

/-- Nothing exists on disk at all; module found with a stylesheet dir;
    no fallback data. -/
def envC5n : ResolverEnv :=
  { read := fun _ => none
  , registry := fun n _ => if n = "w" then some ⟨"w", some "/m", none⟩ else none
  , fallback := fun _ => none }

/-- Nothing exists on disk; the module is found but declares no stylesheet
    directory; the fallback delegate answers. -/
def envC8 : ResolverEnv :=
  { read := fun _ => none
  , registry := fun n _ => if n = "w" then some ⟨"w", none, none⟩ else none
  , fallback := fun _ => some ⟨"FB", "fb"⟩ }

/-- Nothing exists on disk; the module is found but declares no stylesheet
    directory and has a main path; no fallback data. -/
def envC8w : ResolverEnv :=
  { read := fun _ => none
  , registry := fun n _ => if n = "w" then some ⟨"w", none, some "/m/index.js"⟩ else none
  , fallback := fun _ => none }

/-- Registry that only knows the module named with the bare scope. -/
def regC3 : String → Option ModRecord :=
  fun n => if n = "@scope" then some ⟨"@scope", some "/sd", none⟩ else none

/-- Environment for the fs importer witness: nothing on disk, a fallback
    answer for one identifier. -/
def envC9 : ResolverEnv :=
  { read := fun _ => none
  , registry := fun _ _ => none
  , fallback := fun u => if u = "zz" then some ⟨"F", "ff"⟩ else none }

/-- Sandbox environment with one allowed root. -/
def envC10fs : FsEnv :=
  { fsSandbox := some ["/sb"]
  , fileExists := fun _ => false
  , readFile := fun _ => Except.error "nope"
  , glob := fun _ _ => []
  , stat := fun _ => Except.error "nope"
  , realpath := fun _ => Except.error "nope" }

/-- Unrestricted sandbox environment for the validation witness. -/
def envC7 : FsEnv :=
  { fsSandbox := none
  , fileExists := fun _ => false
  , readFile := fun _ => Except.error "nope"
  , glob := fun _ _ => []
  , stat := fun _ => Except.error "nope"
  , realpath := fun _ => Except.error "nope" }

-- ## General lemmas

theorem mk_data : ∀ s : String, String.mk s.data = s
  | ⟨_⟩ => rfl

theorem data_append : ∀ s t : String, (s ++ t).data = s.data ++ t.data
  | ⟨_⟩, ⟨_⟩ => rfl

theorem data_eq_nil_iff (s : String) : s.data = [] ↔ s = "" := by
  constructor
  · intro h
    rw [← mk_data s, h]
  · intro h
    subst h
    rfl

theorem isLead_append (n r : List Char) : isLead n (n ++ r) = true := by
  induction n with
  | nil => rfl
  | cons a as ih => simp [isLead, ih]

theorem isLead_mono {n a : List Char} (b : List Char) (h : isLead n a = true) :
    isLead n (a ++ b) = true := by
  induction n generalizing a with
  | nil => rfl
  | cons c cs ih =>
    cases a with
    | nil => simp [isLead] at h
    | cons x xs =>
      simp [isLead] at h ⊢
      exact ⟨h.1, ih h.2⟩

theorem isLead_exists {n h : List Char} (hl : isLead n h = true) : ∃ t, h = n ++ t := by
  induction n generalizing h with
  | nil => exact ⟨h, rfl⟩
  | cons c cs ih =>
    cases h with
    | nil => simp [isLead] at hl
    | cons x xs =>
      simp [isLead] at hl
      obtain ⟨t, ht⟩ := ih hl.2
      exact ⟨t, by simp [hl.1, ht]⟩

theorem listSub_of_lead {n h : List Char} (hl : isLead n h = true) : listSub n h = true := by
  cases h with
  | nil =>
    cases n with
    | nil => rfl
    | cons c cs => simp [isLead] at hl
  | cons c cs => simp [listSub, hl]

theorem listSub_append_left (a : List Char) {n b : List Char} (h : listSub n b = true) :
    listSub n (a ++ b) = true := by
  induction a with
  | nil => simpa
  | cons c cs ih => simp [listSub, ih]

theorem listSub_self (n : List Char) : listSub n n = true := by
  have := isLead_append n []
  rw [List.append_nil] at this
  exact listSub_of_lead this

theorem joinSep_mem_sub {f : String} {xs : List String} (sep : String) (h : f ∈ xs) :
    listSub f.data (joinSep sep xs).data = true := by
  induction xs with
  | nil => cases h
  | cons x ys ih =>
    cases ys with
    | nil =>
      simp at h
      subst h
      simp [joinSep, listSub_self]
    | cons y ys2 =>
      rcases List.mem_cons.mp h with h1 | h2
      · subst h1
        show listSub f.data (f ++ sep ++ joinSep sep (y :: ys2)).data = true
        rw [data_append, data_append, List.append_assoc]
        exact listSub_of_lead (isLead_append _ _)
      · show listSub f.data (x ++ sep ++ joinSep sep (y :: ys2)).data = true
        rw [data_append, data_append, List.append_assoc]
        exact listSub_append_left _ (listSub_append_left _ (ih h2))

theorem firstHit_none {read : String → Option String} {files : List String}
    (h : ∀ f ∈ files, read f = none) : firstHit read files = none := by
  induction files with
  | nil => rfl
  | cons f fs ih =>
    have hf : read f = none := h f (List.mem_cons_self f fs)
    have ht : ∀ g ∈ fs, read g = none := fun g hg => h g (List.mem_cons_of_mem f hg)
    simp [firstHit, hf, ih ht]

theorem readFirstFile_miss {read : String → Option String} {uri : String} {files : List String}
    (h : ∀ f ∈ files, read f = none) :
    readFirstFile read uri files = Except.error (notFoundMessage uri files) := by
  simp [readFirstFile, firstHit_none h]

theorem notFoundMessage_mem_sub {f : String} {files : List String} (uri : String)
    (h : f ∈ files) :
    listSub f.data (notFoundMessage uri files).data = true :=
  joinSep_mem_sub _ (List.mem_cons_of_mem _ h)

theorem splitCh_ne_nil (sep : Char) (cs : List Char) : splitCh sep cs ≠ [] := by
  cases cs with
  | nil => simp [splitCh]
  | cons c cs =>
    simp only [splitCh]
    split
    · simp
    · split <;> simp

theorem splitCh_append (sep : Char) (a b : List Char) :
    splitCh sep (a ++ sep :: b) = splitCh sep a ++ splitCh sep b := by
  induction a with
  | nil => simp [splitCh]
  | cons c cs ih =>
    by_cases hc : c = sep
    · subst hc
      simp [splitCh, ih]
    · simp only [List.cons_append, splitCh, if_neg hc, List.append_eq]
      rw [ih]
      cases hcs : splitCh sep cs with
      | nil => exact absurd hcs (splitCh_ne_nil sep cs)
      | cons s ss => simp

theorem splitCh_no_sep (sep : Char) {cs : List Char} (h : sep ∉ cs) :
    splitCh sep cs = [cs] := by
  induction cs with
  | nil => rfl
  | cons c cs ih =>
    simp only [List.mem_cons, not_or] at h
    have hc : ¬ c = sep := fun e => h.1 e.symm
    simp [splitCh, hc, ih h.2]

theorem spanNS_no_slash {cs : List Char} (h : '/' ∉ cs) : spanNS cs = (cs, []) := by
  induction cs with
  | nil => rfl
  | cons c cs ih =>
    simp only [List.mem_cons, not_or] at h
    have hc : ¬ c = '/' := fun e => h.1 e.symm
    simp [spanNS, hc, ih h.2]

theorem spanNS_append {a : List Char} (h : '/' ∉ a) (b : List Char) :
    spanNS (a ++ '/' :: b) = (a, '/' :: b) := by
  induction a with
  | nil => simp [spanNS]
  | cons c cs ih =>
    simp only [List.mem_cons, not_or] at h
    have hc : ¬ c = '/' := fun e => h.1 e.symm
    simp [spanNS, hc, ih h.2]

theorem normSegs_append_seg (abs : Bool) (segs : List String) {s : String}
    (h1 : s ≠ "") (h2 : s ≠ ".") (h3 : s ≠ "..") :
    normSegsOf abs (segs ++ [s]) = normSegsOf abs segs ++ [s] := by
  simp [normSegsOf, List.foldl_append, stepSeg, h1, h2, h3]

theorem dropCommon_append (l m : List String) : dropCommon l (l ++ m) = ([], m) := by
  induction l with
  | nil => cases m <;> rfl
  | cons a as ih => simp [dropCommon, ih]

theorem pathRelative_self (r : String) : pathRelative r r = "" := by
  have h := dropCommon_append (normSegsOf true ((splitCh '/' r.data).map String.mk)) []
  rw [List.append_nil] at h
  simp [pathRelative, h, joinSep]

theorem pathRelative_child {r s : String} (h1 : '/' ∉ s.data) (h2 : s ≠ "")
    (h3 : s ≠ ".") (h4 : s ≠ "..") :
    pathRelative r (r ++ "/" ++ s) = s := by
  have hd : (r ++ "/" ++ s).data = r.data ++ '/' :: s.data := by
    rw [data_append, data_append]
    simp
  simp only [pathRelative, hd]
  rw [splitCh_append, splitCh_no_sep _ h1, List.map_append]
  simp only [List.map_cons, List.map_nil, mk_data]
  rw [normSegs_append_seg true _ h2 h3 h4, dropCommon_append]
  simp [joinSep]

theorem moduleImport_module_branch (exts : List String) (env : ResolverEnv)
    (ips : List String) (root uri prev mn rel pc : String) (m : ModRecord) (sd : String)
    (hprev : env.read prev = some pc)
    (hparse : parseModule uri = some (mn, rel))
    (hmod : env.registry mn prev = some m)
    (hsd : m.sassDir = some sd) :
    moduleImport exts env ips root uri prev
      = handleResult env uri (fun _ => handleRelativeImports exts env uri prev root true [])
          (readFirstFile env.read uri (moduleFilesFor exts rel sd mn)) := by
  unfold moduleImport
  rw [hprev, hparse]
  simp only [Option.isSome_some, if_true]
  unfold lookupWithRetry
  simp only [hmod, hsd]

theorem moduleImport_module_miss (exts : List String) (env : ResolverEnv)
    (ips : List String) (root uri prev mn rel pc : String) (m : ModRecord) (sd : String)
    (hprev : env.read prev = some pc)
    (hparse : parseModule uri = some (mn, rel))
    (hmod : env.registry mn prev = some m)
    (hsd : m.sassDir = some sd)
    (hmiss : ∀ f ∈ moduleFilesFor exts rel sd mn, env.read f = none) :
    moduleImport exts env ips root uri prev
      = fallbackOr env uri (handleRelativeImports exts env uri prev root true []) := by
  rw [moduleImport_module_branch exts env ips root uri prev mn rel pc m sd hprev hparse hmod hsd]
  rw [readFirstFile_miss hmiss]
  rfl

theorem moduleImport_all_miss (exts : List String) (env : ResolverEnv)
    (ips : List String) (root uri prev mn rel pc : String) (m : ModRecord) (sd : String)
    (hprev : env.read prev = some pc)
    (hparse : parseModule uri = some (mn, rel))
    (hmod : env.registry mn prev = some m)
    (hsd : m.sassDir = some sd)
    (hmiss : ∀ f ∈ moduleFilesFor exts rel sd mn, env.read f = none)
    (hfb : env.fallback uri = none)
    (hrmiss : ∀ f ∈ relativeFilesFor exts uri prev, env.read f = none) :
    moduleImport exts env ips root uri prev
      = Except.error (notFoundMessage uri (relativeFilesFor exts uri prev)) := by
  rw [moduleImport_module_miss exts env ips root uri prev mn rel pc m sd hprev hparse hmod hsd hmiss]
  unfold fallbackOr
  rw [hfb]
  unfold handleRelativeImports
  simp only [if_true]
  have hrmiss2 : ∀ f ∈ abstractFiles exts uri (dirname prev) [] none, env.read f = none := hrmiss
  rw [readFirstFile_miss hrmiss2]
  simp only [handleResult]
  unfold fallbackOr
  rw [hfb]
  rfl

theorem moduleImport_module_miss_nonreal (exts : List String) (env : ResolverEnv)
    (ips : List String) (root uri prev mn rel : String) (m : ModRecord) (sd : String)
    (hprev : env.read prev = none)
    (hparse : parseModule uri = some (mn, rel))
    (hmod : env.registry mn root = some m)
    (hsd : m.sassDir = some sd)
    (hmiss : ∀ f ∈ moduleFilesFor exts rel sd mn, env.read f = none) :
    moduleImport exts env ips root uri prev
      = fallbackOr env uri (handleRelativeImports exts env uri prev root false []) := by
  unfold moduleImport
  rw [hprev, hparse]
  simp only [Option.isSome_none, Bool.false_eq_true, if_false]
  unfold lookupWithRetry
  simp only [hmod, hsd]
  rw [readFirstFile_miss hmiss]
  rfl

theorem moduleImport_all_miss_nonreal (exts : List String) (env : ResolverEnv)
    (ips : List String) (root uri prev mn rel : String) (m : ModRecord) (sd : String)
    (hprev : env.read prev = none)
    (hparse : parseModule uri = some (mn, rel))
    (hmod : env.registry mn root = some m)
    (hsd : m.sassDir = some sd)
    (hmiss : ∀ f ∈ moduleFilesFor exts rel sd mn, env.read f = none)
    (hfb : env.fallback uri = none)
    (hrmiss : ∀ f ∈ abstractFiles exts uri root [] none, env.read f = none) :
    moduleImport exts env ips root uri prev
      = Except.error ("Could not import " ++ uri ++ " from " ++ prev) := by
  rw [moduleImport_module_miss_nonreal exts env ips root uri prev mn rel m sd
    hprev hparse hmod hsd hmiss]
  unfold fallbackOr
  rw [hfb]
  unfold handleRelativeImports
  simp only [Bool.false_eq_true, if_false]
  rw [readFirstFile_miss hrmiss]
  simp only [handleResult]
  unfold fallbackOr
  rw [hfb]

-- ## Claim theorems

/-- Claim C1 (counterexample): the claim says the external fallback resolver
    is invoked only after no candidate of the relative attempt exists on disk.
    In this concrete run a relative candidate does exist on disk, yet after
    the module-relative miss the import resolves to the fallback delegate's
    data, so the fallback was invoked before the relative attempt. -/
theorem c1_counterexample :
    moduleImport ["scss"] envC1 [] "/r" "w/b" "/p/a.scss" = Except.ok ⟨"FB", "fbfile"⟩
    ∧ "/p/w/_b.scss" ∈ relativeFilesFor ["scss"] "w/b" "/p/a.scss"
    ∧ envC1.read "/p/w/_b.scss" = some "R"
    ∧ envC1.fallback "w/b" = some ⟨"FB", "fbfile"⟩ :=
  ⟨rfl, by decide, rfl, rfl⟩

/-- Claim C1 (amended): when the module-relative attempt finds no candidate on
    disk, the fallback resolver is invoked with the original identifier first;
    only when it reports nothing does the relative attempt proceed (with no
    include paths), and when that attempt also finds no candidate the fallback
    is consulted once more before the final not-found error is produced. -/
theorem c1_fallback_then_relative (exts : List String) (env : ResolverEnv)
    (ips : List String) (root uri prev mn rel pc : String) (m : ModRecord) (sd : String)
    (hprev : env.read prev = some pc)
    (hparse : parseModule uri = some (mn, rel))
    (hmod : env.registry mn prev = some m)
    (hsd : m.sassDir = some sd)
    (hmiss : ∀ f ∈ moduleFilesFor exts rel sd mn, env.read f = none) :
    moduleImport exts env ips root uri prev
      = fallbackOr env uri (handleRelativeImports exts env uri prev root true [])
    ∧ (env.fallback uri = none →
        (∀ f ∈ relativeFilesFor exts uri prev, env.read f = none) →
        moduleImport exts env ips root uri prev
          = Except.error (notFoundMessage uri (relativeFilesFor exts uri prev))) :=
  ⟨moduleImport_module_miss exts env ips root uri prev mn rel pc m sd hprev hparse hmod hsd hmiss,
   fun hfb hrmiss =>
     moduleImport_all_miss exts env ips root uri prev mn rel pc m sd
       hprev hparse hmod hsd hmiss hfb hrmiss⟩

theorem c1_fallback_then_relative_witness :
    moduleImport ["scss"] envC1w [] "/r" "w/b" "/p/a.scss"
      = fallbackOr envC1w "w/b"
          (handleRelativeImports ["scss"] envC1w "w/b" "/p/a.scss" "/r" true []) :=
  (c1_fallback_then_relative ["scss"] envC1w [] "/r" "w/b" "/p/a.scss" "w" "b" ""
    ⟨"w", some "/m", none⟩ "/m" (by decide) (by decide) (by decide) (by decide) (by decide)).1

/-- Claim C5 (counterexample): the claim says the final not-found message
    enumerates every probed candidate.  Here the module-phase candidate /m/b
    is probed, but the final error message does not contain it. -/
theorem c5_counterexample :
    "/m/b" ∈ moduleFilesFor ["scss"] "b" "/m" "w"
    ∧ envC5.registry "w" "/p/a.scss" = some ⟨"w", some "/m", none⟩
    ∧ moduleImport ["scss"] envC5 [] "/r" "w/b" "/p/a.scss"
        = Except.error (notFoundMessage "w/b" (relativeFilesFor ["scss"] "w/b" "/p/a.scss"))
    ∧ listSub "/m/b".data
        (notFoundMessage "w/b" (relativeFilesFor ["scss"] "w/b" "/p/a.scss")).data = false :=
  ⟨by decide, rfl, rfl, by decide⟩

/-- Claim C5 (amended): when every probe misses and the fallback reports
    nothing, the final not-found error carries the message of the last
    relative attempt only: from a real requesting file it enumerates each
    candidate of that attempt and no others; from a requesting file that is
    not real it names only the identifier and the requesting file, with no
    candidate list. -/
theorem c5_notfound_message :
    (∀ (exts : List String) (env : ResolverEnv) (ips : List String)
        (root uri prev mn rel pc : String) (m : ModRecord) (sd : String),
        env.read prev = some pc →
        parseModule uri = some (mn, rel) →
        env.registry mn prev = some m →
        m.sassDir = some sd →
        (∀ f ∈ moduleFilesFor exts rel sd mn, env.read f = none) →
        env.fallback uri = none →
        (∀ f ∈ relativeFilesFor exts uri prev, env.read f = none) →
        moduleImport exts env ips root uri prev
          = Except.error (notFoundMessage uri (relativeFilesFor exts uri prev))
        ∧ ∀ f ∈ relativeFilesFor exts uri prev,
            listSub f.data (notFoundMessage uri (relativeFilesFor exts uri prev)).data = true)
    ∧ (∀ (exts : List String) (env : ResolverEnv) (ips : List String)
        (root uri prev mn rel : String) (m : ModRecord) (sd : String),
        env.read prev = none →
        parseModule uri = some (mn, rel) →
        env.registry mn root = some m →
        m.sassDir = some sd →
        (∀ f ∈ moduleFilesFor exts rel sd mn, env.read f = none) →
        env.fallback uri = none →
        (∀ f ∈ abstractFiles exts uri root [] none, env.read f = none) →
        moduleImport exts env ips root uri prev
          = Except.error ("Could not import " ++ uri ++ " from " ++ prev)) :=
  ⟨fun exts env ips root uri prev mn rel pc m sd hprev hparse hmod hsd hmiss hfb hrmiss =>
     ⟨moduleImport_all_miss exts env ips root uri prev mn rel pc m sd
        hprev hparse hmod hsd hmiss hfb hrmiss,
      fun _ hf => notFoundMessage_mem_sub uri hf⟩,
   fun exts env ips root uri prev mn rel m sd hprev hparse hmod hsd hmiss hfb hrmiss =>
     moduleImport_all_miss_nonreal exts env ips root uri prev mn rel m sd
       hprev hparse hmod hsd hmiss hfb hrmiss⟩

theorem c5_notfound_message_witness :
    moduleImport ["scss"] envC5w [] "/r" "w/b" "/p/a.scss"
      = Except.error (notFoundMessage "w/b" (relativeFilesFor ["scss"] "w/b" "/p/a.scss"))
    ∧ moduleImport ["scss"] envC5n [] "/r" "w/b" "/p/a.scss"
      = Except.error ("Could not import " ++ "w/b" ++ " from " ++ "/p/a.scss") :=
  ⟨(c5_notfound_message.1 ["scss"] envC5w [] "/r" "w/b" "/p/a.scss" "w" "b" ""
      ⟨"w", some "/m", none⟩ "/m" (by decide) (by decide) (by decide) (by decide)
      (by decide) (by decide) (by decide)).1,
   c5_notfound_message.2 ["scss"] envC5n [] "/r" "w/b" "/p/a.scss" "w" "b"
      ⟨"w", some "/m", none⟩ "/m" (by decide) (by decide) (by decide) (by decide)
      (by decide) (by decide) (by decide)⟩

/-- Claim C8 (counterexample): the claim says a located module without a
    declared stylesheet directory and no real requesting file makes the import
    fail with a configuration error.  Here the fallback delegate rescues the
    import, which succeeds with the delegate's data and surfaces no error. -/
theorem c8_counterexample :
    moduleImport ["scss"] envC8 [] "/r" "w/x" "/p.scss" = Except.ok ⟨"FB", "fb"⟩
    ∧ envC8.registry "w" "/r" = some ⟨"w", none, none⟩
    ∧ envC8.read "/p.scss" = none :=
  ⟨rfl, rfl, rfl⟩

/-- Claim C8 (amended): with a located module lacking a declared stylesheet
    directory, no real requesting file, and a fallback that reports nothing,
    the import fails with the configuration error naming the module and its
    package.json, plus its main path when present. -/
theorem c8_missing_sassdir_error (exts : List String) (env : ResolverEnv)
    (ips : List String) (root uri prev mn rel : String) (m : ModRecord)
    (hprev : env.read prev = none)
    (hparse : parseModule uri = some (mn, rel))
    (hmod : env.registry mn root = some m)
    (hsd : m.sassDir = none)
    (hfb : env.fallback uri = none) :
    moduleImport exts env ips root uri prev
      = Except.error ("sassDir is not specified in " ++ m.name ++ "'s package.json"
          ++ (match m.mainPath with | some mp => " or " ++ mp | none => "")) := by
  unfold moduleImport
  rw [hprev, hparse]
  simp only [Option.isSome_none, Bool.false_eq_true, if_false]
  unfold lookupWithRetry
  simp only [hmod, hsd]
  unfold fallbackOr
  rw [hfb]
  rfl

theorem c8_missing_sassdir_error_witness :
    moduleImport ["scss"] envC8w [] "/r" "w/x" "/p.scss"
      = Except.error ("sassDir is not specified in " ++ "w" ++ "'s package.json"
          ++ (match (some "/m/index.js" : Option String) with
              | some mp => " or " ++ mp | none => "")) :=
  c8_missing_sassdir_error ["scss"] envC8w [] "/r" "w/x" "/p.scss" "w" "x"
    ⟨"w", none, some "/m/index.js"⟩ (by decide) (by decide) (by decide) (by decide) (by decide)

/-- Claim C2 (counterexample): the claim says a path strictly inside an
    allowed root is always permitted.  The normalized path /sb/..f lies
    strictly inside the root /sb (its only segment below the root is the
    name ..f), yet the guard rejects it because the textual relative path
    starts with two dots. -/
theorem c2_counterexample :
    pathNormalize "/sb/..f" = "/sb/..f"
    ∧ strStarts "/sb/..f" "/sb/" = true
    ∧ inSandbox (some ["/sb"]) "/sb/..f" = false := by decide

/-- Claim C2 (amended): with an unrestricted configuration the guard always
    permits; with an allow-list it permits exactly when for at least one root
    the relative path from that root does not textually start with two dots;
    a path equal to an allowed root is permitted; a path strictly inside an
    allowed root is permitted unless its first segment below the root itself
    starts with two dots; and a path that ascends out of an allowed root is
    rejected even when the root is a string-prefix of the resolved path. -/
theorem c2_sandbox_permission :
    (∀ p, inSandbox none p = true)
    ∧ (∀ roots p, inSandbox (some roots) p = true
        ↔ ∃ r ∈ roots, strStarts (pathRelative r p) ".." = false)
    ∧ (∀ r roots, r ∈ roots → inSandbox (some roots) r = true)
    ∧ inSandbox (some ["/sb"]) "/sb/a/b.scss" = true
    ∧ pathNormalize "/sb/../sby/x" = "/sby/x"
    ∧ strStarts "/sby/x" "/sb" = true
    ∧ inSandbox (some ["/sb"]) "/sb/../sby/x" = false
    ∧ inSandbox (some ["/sb"]) "/sby/x" = false := by
  refine ⟨fun p => rfl, ?_, ?_, by decide, by decide, by decide, by decide, by decide⟩
  · intro roots p
    simp [inSandbox, pathInSandboxDir, List.any_eq_true, Bool.not_eq_true']
  · intro r roots hr
    have hin : pathInSandboxDir r r = true := by
      unfold pathInSandboxDir
      rw [pathRelative_self]
      decide
    simp only [inSandbox, List.any_eq_true]
    exact ⟨r, hr, hin⟩

theorem c2_sandbox_permission_witness :
    inSandbox (some ["/sb", "/other"]) "/sb" = true :=
  c2_sandbox_permission.2.2.1 "/sb" ["/sb", "/other"] (by decide)

/-- Claim C10: for a root and a genuine path segment whose name starts with
    two literal dots, the candidate directly below the root is denied: the
    relative path from the root is exactly that segment, the guard tests a
    textual two-dot lead rather than a whole-segment escape, and the fs
    functions answer with the security violation. -/
theorem c10_dotdot_segment_denied (r seg : String)
    (hslash : '/' ∉ seg.data)
    (hdd : strStarts seg ".." = true)
    (hne : seg ≠ "..") :
    pathRelative r (r ++ "/" ++ seg) = seg
    ∧ inSandbox (some [r]) (r ++ "/" ++ seg) = false
    ∧ ∀ env : FsEnv, env.fsSandbox = some [r] →
        fsExists env (SassVal.str (r ++ "/" ++ seg)) = accessViolation (r ++ "/" ++ seg) := by
  have hdd2 : isLead ('.' :: '.' :: []) seg.data = true := hdd
  obtain ⟨t, ht⟩ := isLead_exists hdd2
  have h2 : seg ≠ "" := by
    intro e
    rw [e] at ht
    simp at ht
  have h3 : seg ≠ "." := by
    intro e
    rw [e] at ht
    simp at ht
  have hrel : pathRelative r (r ++ "/" ++ seg) = seg :=
    pathRelative_child hslash h2 h3 hne
  have hsand : inSandbox (some [r]) (r ++ "/" ++ seg) = false := by
    simp [inSandbox, pathInSandboxDir, hrel, hdd]
  exact ⟨hrel, hsand, fun env he => by simp [fsExists, he, hsand]⟩

theorem c10_dotdot_segment_denied_witness :
    inSandbox (some ["/sb"]) ("/sb" ++ "/" ++ "..foo") = false
    ∧ fsExists envC10fs (SassVal.str ("/sb" ++ "/" ++ "..foo"))
        = accessViolation ("/sb" ++ "/" ++ "..foo") :=
  ⟨(c10_dotdot_segment_denied "/sb" "..foo" (by decide) (by decide) (by decide)).2.1,
   (c10_dotdot_segment_denied "/sb" "..foo" (by decide) (by decide) (by decide)).2.2
     envC10fs rfl⟩

theorem data_at_append (scope : String) : ("@" ++ scope).data = '@' :: scope.data := by
  rw [data_append]
  rfl

/-- Claim C3: a parsed scoped module name that misses in the registry is
    re-split exactly once: the first slash-delimited segment alone becomes
    the module name, the leftover scope segment is prepended to the intended
    relative path, and the lookup result of the re-split name is final. -/
theorem c3_scoped_retry (reg : String → Option ModRecord) (scope name rel : String)
    (hscope : '/' ∉ scope.data) (hname : '/' ∉ name.data)
    (hmiss : reg ("@" ++ scope ++ "/" ++ name) = none) :
    lookupWithRetry reg ("@" ++ scope ++ "/" ++ name) rel
      = ("@" ++ scope, name ++ "/" ++ rel, reg ("@" ++ scope)) := by
  have hdata : ("@" ++ scope ++ "/" ++ name).data
      = ('@' :: scope.data) ++ '/' :: name.data := by
    rw [data_append, data_append, data_at_append]
    simp
  have hstart : strStarts ("@" ++ scope ++ "/" ++ name) "@" = true := by
    unfold strStarts
    rw [hdata]
    simp [isLead]
  have hsplit : splitCh '/' ("@" ++ scope ++ "/" ++ name).data
      = ['@' :: scope.data, name.data] := by
    rw [hdata, splitCh_append]
    rw [splitCh_no_sep '/' (show '/' ∉ '@' :: scope.data by
      intro h
      rcases List.mem_cons.mp h with h1 | h1
      · exact absurd h1 (by decide)
      · exact hscope h1)]
    rw [splitCh_no_sep '/' hname]
    rfl
  have hmk : String.mk ('@' :: scope.data) = "@" ++ scope := by
    rw [← data_at_append, mk_data]
  unfold lookupWithRetry
  rw [hmiss]
  simp only [hstart, if_true, hsplit, List.map_cons, List.map_nil, hmk, mk_data]
  rfl

theorem c3_scoped_retry_witness :
    lookupWithRetry regC3 ("@" ++ "scope" ++ "/" ++ "name") "sub"
      = ("@" ++ "scope", "name" ++ "/" ++ "sub", regC3 ("@" ++ "scope")) :=
  c3_scoped_retry regC3 "scope" "name" "sub" (by decide) (by decide) (by decide)

theorem data_isEmpty_false {a : String} (h : a ≠ "") : a.data.isEmpty = false := by
  cases hd : a.data with
  | nil => exact absurd ((data_eq_nil_iff a).mp hd) h
  | cons c cs => rfl

theorem scopedMatch_no_at {c : Char} (cs : List Char) (h : ¬ c = '@') :
    scopedMatch (c :: cs) = none := by
  simp [scopedMatch, h]

theorem scopedMatch_no_slash {cs : List Char} (h : '/' ∉ cs) : scopedMatch cs = none := by
  cases cs with
  | nil => rfl
  | cons c cs2 =>
    by_cases hc : c = '@'
    · subst hc
      have h2 : '/' ∉ cs2 := fun hm => h (List.mem_cons_of_mem _ hm)
      simp [scopedMatch, spanNS_no_slash h2]
    · simp [scopedMatch, hc]

theorem mk_scoped (a b : String) :
    String.mk ('@' :: (a.data ++ '/' :: b.data)) = "@" ++ a ++ "/" ++ b := by
  have hd : ("@" ++ a ++ "/" ++ b).data = '@' :: (a.data ++ '/' :: b.data) := by
    rw [data_append, data_append, data_at_append]
    simp
  rw [← hd, mk_data]

theorem dotStar_all {cs : List Char} (h : ∀ c ∈ cs, isLineTerm c = false) :
    dotStar cs = cs := by
  induction cs with
  | nil => rfl
  | cons c cs ih =>
    have hc : isLineTerm c = false := h c (List.mem_cons_self c cs)
    have ih2 := ih (fun d hd => h d (List.mem_cons_of_mem c hd))
    simp only [dotStar] at ih2 ⊢
    simp [List.takeWhile_cons, hc, ih2]

/-- Claim C4 (counterexample): the claim says the relative path is the whole
    remainder after the module name.  The dot of the parsing pattern does not
    cross line terminators, so an identifier with a newline in the remainder
    parses with a truncated relative path, not the remainder. -/
theorem c4_counterexample :
    parseModule "pkg/lib\nx" = some ("pkg", "lib")
    ∧ parseModule "pkg/lib\nx" ≠ some ("pkg", "lib\nx") := by decide

/-- Claim C4 (amended): module-name parsing splits an identifier into a
    leading scoped two-segment name or a single bare segment, followed
    optionally by a slash and the remaining relative path truncated at the
    first line terminator; when the remainder contains no line terminator
    the relative path is the full remainder, as on the two spec examples. -/
theorem c4_module_name_parsing :
    (∀ a b r : String, a ≠ "" → b ≠ "" → '/' ∉ a.data → '/' ∉ b.data →
        (∀ c ∈ r.data, isLineTerm c = false) →
        parseModule ("@" ++ a ++ "/" ++ b ++ "/" ++ r) = some ("@" ++ a ++ "/" ++ b, r))
    ∧ (∀ a b : String, a ≠ "" → b ≠ "" → '/' ∉ a.data → '/' ∉ b.data →
        parseModule ("@" ++ a ++ "/" ++ b) = some ("@" ++ a ++ "/" ++ b, ""))
    ∧ (∀ p r : String, p ≠ "" → '/' ∉ p.data → strStarts p "@" = false →
        (∀ c ∈ r.data, isLineTerm c = false) →
        parseModule (p ++ "/" ++ r) = some (p, r))
    ∧ (∀ p : String, p ≠ "" → '/' ∉ p.data → parseModule p = some (p, ""))
    ∧ parseModule "@scope/pkg/lib/_foo" = some ("@scope/pkg", "lib/_foo")
    ∧ parseModule "pkg/lib/foo" = some ("pkg", "lib/foo") := by
  refine ⟨?_, ?_, ?_, ?_, by decide, by decide⟩
  · intro a b r ha hb hsa hsb hr
    have hd : ("@" ++ a ++ "/" ++ b ++ "/" ++ r).data
        = '@' :: (a.data ++ '/' :: (b.data ++ '/' :: r.data)) := by
      rw [data_append, data_append, data_append, data_append]
      simp
    simp [parseModule, moduleParserL, hd, scopedMatch, spanNS_append hsa,
      spanNS_append hsb, data_isEmpty_false ha, data_isEmpty_false hb,
      dropOptSlash, dotStar_all hr, mk_scoped, mk_data]
  · intro a b ha hb hsa hsb
    have hd : ("@" ++ a ++ "/" ++ b).data
        = '@' :: (a.data ++ '/' :: b.data) := by
      rw [data_append, data_append]
      simp
    simp [parseModule, moduleParserL, hd, scopedMatch, spanNS_append hsa,
      spanNS_no_slash hsb, data_isEmpty_false ha, data_isEmpty_false hb,
      dropOptSlash, dotStar, mk_scoped]
  · intro p r hp hsp hat hr
    obtain ⟨c, cs0, hpd⟩ : ∃ c cs0, p.data = c :: cs0 := by
      cases hd : p.data with
      | nil => exact absurd ((data_eq_nil_iff p).mp hd) hp
      | cons c cs0 => exact ⟨c, cs0, rfl⟩
    have hc : ¬ c = '@' := by
      intro e
      rw [strStarts, hpd, e] at hat
      simp [isLead] at hat
    have hd : (p ++ "/" ++ r).data = c :: (cs0 ++ '/' :: r.data) := by
      rw [data_append, data_append, hpd]
      simp
    have hs0 : '/' ∉ cs0 := by
      intro hm
      exact hsp (by rw [hpd]; exact List.mem_cons_of_mem _ hm)
    have hspan : spanNS (c :: (cs0 ++ '/' :: r.data)) = (c :: cs0, '/' :: r.data) := by
      have hns : ¬ c = '/' := by
        intro e
        exact hsp (by rw [hpd, e]; exact List.mem_cons_self _ _)
      simp [spanNS, hns, spanNS_append hs0]
    simp [parseModule, moduleParserL, hd, scopedMatch_no_at _ hc, bareMatch, hspan,
      dropOptSlash, dotStar_all hr, ← hpd, mk_data, data_eq_nil_iff, hp]
  · intro p hp hsp
    simp [parseModule, moduleParserL, scopedMatch_no_slash hsp, bareMatch,
      spanNS_no_slash hsp, data_isEmpty_false hp, dropOptSlash, dotStar, mk_data]

theorem c4_module_name_parsing_witness :
    parseModule ("@" ++ "s" ++ "/" ++ "p" ++ "/" ++ "x") = some ("@" ++ "s" ++ "/" ++ "p", "x")
    ∧ parseModule ("q" ++ "/" ++ "y") = some ("q", "y") :=
  ⟨c4_module_name_parsing.1 "s" "p" "x" (by decide) (by decide) (by decide) (by decide)
     (by decide),
   c4_module_name_parsing.2.2.1 "q" "y" (by decide) (by decide) (by decide) (by decide)⟩

theorem uriSplit_cons_isSome {c : Char} (cs : List Char) (h1 : c ≠ '?') (h2 : c ≠ '#') :
    (uriSplit (c :: cs)).isSome = true := by
  have hc : (!(c = '?' || c = '#')) = true := by simp [h1, h2]
  unfold uriSplit
  simp only [List.takeWhile_cons, hc, if_true]
  simp only [List.isEmpty_cons, Bool.false_eq_true, if_false]
  split
  · simp
  · split_ifs <;> simp

/-- Claim C6 (counterexample): the claim says normalization never fails on
    any input string.  On the empty string the fragment pattern does not
    match and the constructor dereferences a null match result. -/
theorem c6_counterexample : uriConstruct true none "" = none := rfl

/-- Claim C6 (amended): the URI constructor succeeds on every input whose
    first character exists and is not a query or fragment delimiter; an input
    that is empty or starts with one of the two delimiters makes the
    constructor fail on the unmatched pattern. -/
theorem c6_normalization_total (flag : Bool) (sep : Option String) (c : Char)
    (cs : List Char) (h1 : c ≠ '?') (h2 : c ≠ '#') :
    (uriConstruct flag sep (String.mk (c :: cs))).isSome = true := by
  unfold uriConstruct
  have hs : (String.mk (c :: cs)).data = c :: cs := rfl
  rw [hs]
  cases hq : uriSplit (c :: cs) with
  | none =>
    have := uriSplit_cons_isSome cs h1 h2
    rw [hq] at this
    simp at this
  | some v =>
    obtain ⟨p, q, h⟩ := v
    simp

theorem c6_normalization_total_witness :
    (uriConstruct true none (String.mk ('a' :: "?x".data))).isSome = true :=
  c6_normalization_total true none 'a' "?x".data (by decide) (by decide)

/-- Claim C7 (counterexample): the claim says every string-typed parameter of
    every sandboxed fs function is validated and a non-string argument yields
    a type-mismatch error value.  The join function does not validate its
    segments: a non-string segment makes the underlying path library throw
    (modelled as none), so no error value is produced. -/
theorem c7_counterexample :
    fsJoin [SassVal.num 5 ""] = none ∧ isStrV (SassVal.num 5 "") = false :=
  ⟨rfl, rfl⟩

/-- Claim C7 (amended): the fs functions with fixed string parameters
    (exists, list-files, list-directories, parse-filename, info, read-file)
    validate each of them in order and answer a non-string argument with the
    type-mismatch error naming the expected string type; the variadic join
    performs no validation and a non-string segment ends in a thrown
    exception instead of an error value. -/
theorem c7_string_validation :
    (∀ env v, isStrV v = false → fsExists env v = typeErrorV "string" v)
    ∧ (∀ env d g, isStrV d = false → fsListFiles env d g = typeErrorV "string" d)
    ∧ (∀ env g s, isStrV g = false →
        fsListFiles env (SassVal.str s) g = typeErrorV "string" g)
    ∧ (∀ env d g, isStrV d = false → fsListDirectories env d g = typeErrorV "string" d)
    ∧ (∀ env g s, isStrV g = false →
        fsListDirectories env (SassVal.str s) g = typeErrorV "string" g)
    ∧ (∀ v, isStrV v = false → fsParseFilename v = typeErrorV "string" v)
    ∧ (∀ env v, isStrV v = false → fsInfo env v = typeErrorV "string" v)
    ∧ (∀ env v, isStrV v = false → fsReadFile env v = typeErrorV "string" v)
    ∧ (∀ segs v, v ∈ segs → isStrV v = false → fsJoin segs = none) := by
  refine ⟨?_, ?_, ?_, ?_, ?_, ?_, ?_, ?_, ?_⟩
  · intro env v h
    cases v <;> first | rfl | simp [isStrV] at h
  · intro env d g h
    cases d <;> first | rfl | simp [isStrV] at h
  · intro env g s h
    cases g <;> first | rfl | simp [isStrV] at h
  · intro env d g h
    cases d <;> first | rfl | simp [isStrV] at h
  · intro env g s h
    cases g <;> first | rfl | simp [isStrV] at h
  · intro v h
    cases v <;> first | rfl | simp [isStrV] at h
  · intro env v h
    cases v <;> first | rfl | simp [isStrV] at h
  · intro env v h
    cases v <;> first | rfl | simp [isStrV] at h
  · intro segs v hv hf
    have hnot : ¬ (segs.all isStrV = true) := by
      intro hall
      rw [List.all_eq_true] at hall
      rw [hall v hv] at hf
      exact Bool.noConfusion hf
    have hb : segs.all isStrV = false := Bool.eq_false_iff.mpr hnot
    simp [fsJoin, hb]

theorem c7_string_validation_witness :
    fsExists envC7 (SassVal.num 5 "px") = typeErrorV "string" (SassVal.num 5 "px")
    ∧ fsJoin [SassVal.str "a", SassVal.boolean true] = none :=
  ⟨c7_string_validation.1 envC7 (SassVal.num 5 "px") rfl,
   c7_string_validation.2.2.2.2.2.2.2.2 [SassVal.str "a", SassVal.boolean true]
     (SassVal.boolean true) (by simp) rfl⟩

/-- Claim C9: an identifier of the fs(token) shape never resolves a real
    file: the importer synthesizes registration content over a base directory
    that is the project root for the reserved token, else the requesting
    file's directory when that file exists, else the working directory; any
    other identifier defers to the fallback delegate and otherwise yields the
    null signal. -/
theorem c9_fs_importer :
    (∀ env root cwd uri prev tok, fsURIMatch uri = some tok →
        fsImporter env root cwd uri prev
          = FSImportResult.imported
              ⟨fsRegistrationContents tok
                  (if tok = "root" then root
                   else if (env.read prev).isSome then pathResolve cwd (dirname prev)
                   else pathResolve cwd "."),
               "fs:" ++ tok ++ ":"
                 ++ (if tok = "root" then root
                     else if (env.read prev).isSome then pathResolve cwd (dirname prev)
                     else pathResolve cwd ".")⟩)
    ∧ (∀ env root cwd uri prev, fsURIMatch uri = none →
        fsImporter env root cwd uri prev
          = (match env.fallback uri with
             | some d => FSImportResult.fallbackData d
             | none => FSImportResult.nullResult)) := by
  constructor
  · intro env root cwd uri prev tok h
    unfold fsImporter
    rw [h]
    by_cases h1 : tok = "root"
    · simp [h1]
    · cases h2 : (env.read prev).isSome <;> simp [h1, h2]
  · intro env root cwd uri prev h
    unfold fsImporter
    rw [h]

theorem c9_fs_importer_witness :
    fsImporter envC9 "/r" "/c" "fs(root)" "/q.scss"
      = FSImportResult.imported
          ⟨fsRegistrationContents "root"
              (if "root" = "root" then "/r"
               else if (envC9.read "/q.scss").isSome then pathResolve "/c" (dirname "/q.scss")
               else pathResolve "/c" "."),
           "fs:" ++ "root" ++ ":"
             ++ (if "root" = "root" then "/r"
                 else if (envC9.read "/q.scss").isSome then pathResolve "/c" (dirname "/q.scss")
                 else pathResolve "/c" ".")⟩
    ∧ fsImporter envC9 "/r" "/c" "zz" "/q.scss"
        = (match envC9.fallback "zz" with
           | some d => FSImportResult.fallbackData d
           | none => FSImportResult.nullResult) :=
  ⟨c9_fs_importer.1 envC9 "/r" "/c" "fs(root)" "/q.scss" "root" (by decide),
   c9_fs_importer.2 envC9 "/r" "/c" "zz" "/q.scss" (by decide)⟩
